import Mathlib

/-!
Verification development for the Go package opt: a generic optional-value
container with a tri-state model (unset, explicit-none, explicit-some),
functional combinators, and binary / document / text / value-store adapters.

Modelling conventions:
- Go type parameters T become Lean type parameters; the Go zero value of T is
  the Inhabited default (every Go type has a unique zero value).
- Go nullable pointers are modelled as Option values.
- Go (result, error) returns are modelled as Except String results; Go methods
  that mutate the receiver and return an error are modelled as functions from
  the old receiver state to (new state, optional error), so that what happens
  to the receiver on the error paths stays observable.
- A Go runtime panic is modelled as an Except.error result.
- Byte slices are lists of Nat holding the byte values.
-/

namespace opt

/-- The struct Opt[T] of src/opt.go: a contained payload, a presence flag and
an explicitness flag recording whether the state was deliberately set. -/
structure Opt (T : Type) where
  value : T
  hasValue : Bool
  explicit : Bool

/-- A zero-initialized Opt[T] slot in Go (variable declared without a
constructor call): every field holds its zero value. -/
def zeroOpt {T : Type} [Inhabited T] : Opt T :=
  { value := default, hasValue := false, explicit := false }

/-- Constructor Some of src/opt.go. -/
def Some {T : Type} (value : T) : Opt T :=
  { value := value, hasValue := true, explicit := true }

/-- Constructor None of src/opt.go: only the explicit field is set, so the
payload stays the zero value of T and hasValue stays false. -/
def None {T : Type} [Inhabited T] : Opt T :=
  { value := default, hasValue := false, explicit := true }

/-- FromPtr of src/opt.go; the Go pointer argument is modelled as an Option. -/
def FromPtr {T : Type} [Inhabited T] (ptr : Option T) : Opt T :=
  match ptr with
  | Option.none => None
  | Option.some v => Some v

/-- FromZero of src/opt.go: absent when the argument equals the zero value. -/
def FromZero {T : Type} [Inhabited T] [DecidableEq T] (value : T) : Opt T :=
  if value = default then None else Some value

/-- FromProto of src/opt.go; the protobuf validity probe
msg.ProtoReflect().IsValid() is modelled as a boolean predicate on the
message. -/
def FromProto {T : Type} [Inhabited T] (isValid : T → Bool) (msg : T) : Opt T :=
  if isValid msg then Some msg else None

/-- FromTuple of src/opt.go. -/
def FromTuple {T : Type} [Inhabited T] (value : T) (ok : Bool) : Opt T :=
  if ok then Some value else None

/-- Opt.IsExplicit of src/opt.go. -/
def Opt.IsExplicit {T : Type} (o : Opt T) : Bool :=
  o.explicit

/-- Opt.IsSome of src/opt.go. -/
def Opt.IsSome {T : Type} (o : Opt T) : Bool :=
  o.hasValue

/-- Opt.IsNone of src/opt.go. -/
def Opt.IsNone {T : Type} (o : Opt T) : Bool :=
  !o.hasValue

/-- Opt.GetOrEmpty of src/opt.go: the contained value, or a fresh zero value
when absent. -/
def Opt.GetOrEmpty {T : Type} [Inhabited T] (o : Opt T) : T :=
  if o.hasValue then o.value else default

/-- Opt.TryGet of src/opt.go: the contained value and true when present, a
fresh zero value and false otherwise. -/
def Opt.TryGet {T : Type} [Inhabited T] (o : Opt T) : T × Bool :=
  if o.hasValue then (o.value, true) else (default, false)

/-- Opt.GetOr of src/opt.go. -/
def Opt.GetOr {T : Type} (o : Opt T) (or : T) : T :=
  if o.hasValue then o.value else or

/-- Opt.Inspect of src/opt.go: calls the callback when present and returns the
original option; in a pure embedding only the returned option is kept. -/
def Opt.Inspect {T : Type} (o : Opt T) (f : T → Unit) : Opt T :=
  o

/-- The method Opt.Map of src/opt.go (same contained type). -/
def Opt.Map {T : Type} (o : Opt T) (f : T → T) : Opt T :=
  if o.hasValue then Some (f o.value) else o

/-- Opt.And of src/opt.go. -/
def Opt.And {T : Type} (o : Opt T) (and : Opt T) : Opt T :=
  if o.hasValue then and else o

/-- The method Opt.AndThen of src/opt.go (same contained type). -/
def Opt.AndThen {T : Type} (o : Opt T) (andThen : T → Opt T) : Opt T :=
  if o.hasValue then andThen o.value else o

/-- Opt.Or of src/opt.go. -/
def Opt.Or {T : Type} (o : Opt T) (or : Opt T) : Opt T :=
  if o.hasValue then o else or

/-- Opt.OrElse of src/opt.go. -/
def Opt.OrElse {T : Type} (o : Opt T) (orElse : Unit → Opt T) : Opt T :=
  if o.hasValue then o else orElse ()

/-- Opt.Filter of src/opt.go. -/
def Opt.Filter {T : Type} [Inhabited T] (o : Opt T) (predicate : T → Bool) : Opt T :=
  if !o.hasValue then o
  else if !predicate o.value then None
  else o

/-- Opt.ToPtr of src/opt.go; the returned Go pointer is modelled as an
Option. -/
def Opt.ToPtr {T : Type} (o : Opt T) : Option T :=
  if o.hasValue then Option.some o.value else Option.none

/-- Opt.ToSlice of src/opt.go. -/
def Opt.ToSlice {T : Type} (o : Opt T) : List T :=
  if o.hasValue then [o.value] else []

/-- IndexSlice of src/opt.go: returns a closure over the slice. Go int indices
are modelled as Int; the in-bounds access is written with getD, which the
guard keeps within range. -/
def IndexSlice {T : Type} [Inhabited T] (slice : List T) : Int → Opt T :=
  fun index =>
    if (slice.length : Int) ≤ index ∨ index < 0 then None
    else Some (slice.getD index.toNat default)

/-- IndexMap of src/opt.go: returns a closure over the map. A Go map is
modelled as a lookup function; the two-result Go read (value, ok) is the
Option result of that function. -/
def IndexMap {K V : Type} [Inhabited V] (m : K → Option V) : K → Opt V :=
  fun key =>
    match m key with
    | Option.some value => Some value
    | Option.none => None

/-- The free function Map of src/opt.go (may change the contained type). -/
def Map {T U : Type} [Inhabited U] (option : Opt T) (f : T → U) : Opt U :=
  if option.hasValue then Some (f option.value) else None

/-- The free function AndThen of src/opt.go (may change the contained
type). -/
def AndThen {T U : Type} [Inhabited U] (option : Opt T) (f : T → Opt U) : Opt U :=
  if option.hasValue then f option.value else None

/-- The older variant of the struct (src/unnamed/part_003): no explicitness
flag, presence flag named ok. -/
structure OptV0 (T : Type) where
  value : T
  ok : Bool

/-- Constructor Some of the older variant. -/
def SomeV0 {T : Type} (value : T) : OptV0 T :=
  { value := value, ok := true }

/-- Constructor None of the older variant. -/
def NoneV0 {T : Type} [Inhabited T] : OptV0 T :=
  { value := default, ok := false }

/-- IndexSlice of the older variant (src/unnamed/part_003 lines 212-218):
only an upper-bound check is made, so a negative index reaches the raw slice
access and panics at runtime; the panic is modelled as an error result. -/
def IndexSliceV0 {T : Type} [Inhabited T] (slice : List T) (index : Int) :
    Except String (OptV0 T) :=
  if (slice.length : Int) ≤ index then Except.ok NoneV0
  else if index < 0 then Except.error "runtime error: index out of range"
  else Except.ok (SomeV0 (slice.getD index.toNat default))

/-- IndexMap of the older variant (src/unnamed/part_003 lines 220-225): the
struct is built directly from the two-result map read, whose value part is the
zero value when the key is missing. -/
def IndexMapV0 {K V : Type} [Inhabited V] (m : K → Option V) (key : K) : OptV0 V :=
  { value := (m key).getD default, ok := (m key).isSome }

/-- UnwrapOrEmpty of the older variant (src/unnamed/part_003 lines 76-79):
returns the stored payload directly, relying on the invariant that an absent
option stores the zero value. -/
def OptV0.UnwrapOrEmpty {T : Type} (o : OptV0 T) : T :=
  o.value

/-- The value equality the spec uses for options (invariant I5): equal
presence and, when both present, equal contained values; explicitness does
not participate. -/
def EqOpt {T : Type} (x y : Opt T) : Prop :=
  x.hasValue = y.hasValue ∧ (x.hasValue = true → x.value = y.value)

/-- The generic binary codec of the host (gob in the source), specified only
through its capability contract: encode may fail, decode may fail. -/
structure BinCodec (T : Type) where
  enc : T → Except String (List Nat)
  dec : List Nat → Except String T

/-- Opt.MarshalBinary of src/unnamed/part_000: a single 0 byte when absent,
a 1 byte followed by the inner encoding when present; an inner encoding error
is propagated. -/
def Opt.MarshalBinary {T : Type} (c : BinCodec T) (o : Opt T) :
    Except String (List Nat) :=
  if !o.hasValue then Except.ok [0]
  else
    match c.enc o.value with
    | Except.error err => Except.error err
    | Except.ok bs => Except.ok (1 :: bs)

/-- Opt.UnmarshalBinary of src/unnamed/part_000: empty input is an error, a
leading 0 byte decodes to None, anything else feeds the rest to the inner
codec; the receiver is assigned only on success. -/
def Opt.UnmarshalBinary {T : Type} [Inhabited T] (c : BinCodec T) (o : Opt T)
    (data : List Nat) : Opt T × Option String :=
  match data with
  | [] => (o, Option.some "Opt[T].UnmarshalBinary: no data")
  | b :: rest =>
    if b = 0 then (None, Option.none)
    else
      match c.dec rest with
      | Except.error err => (o, Option.some err)
      | Except.ok v => (Some v, Option.none)

/-- The byte string of the document null literal, which the source writes and
compares as the Go literal []byte("null"). -/
def goNullBytes : List Nat :=
  [110, 117, 108, 108]

/-- The host document codec (encoding/json in the source) for a single type T,
specified through its capability contract: encoding a T may fail; decoding
targets a nullable reference to T, so a successful decode yields either a
null reference (Option.none) or a referenced value. -/
structure JsonCodec (T : Type) where
  enc : T → Except String (List Nat)
  dec : List Nat → Except String (Option T)

/-- Opt.MarshalJSON of src/unnamed/part_000: the inner document encoding of
the value when present, the null literal when absent. -/
def Opt.MarshalJSON {T : Type} (c : JsonCodec T) (o : Opt T) :
    Except String (List Nat) :=
  if o.hasValue then c.enc o.value else Except.ok goNullBytes

/-- Opt.UnmarshalJSON of src/unnamed/part_000: decode into a nullable
reference; a null reference becomes None, a value becomes Some, and a decode
error leaves the receiver untouched. -/
def Opt.UnmarshalJSON {T : Type} [Inhabited T] (c : JsonCodec T) (o : Opt T)
    (b : List Nat) : Opt T × Option String :=
  match c.dec b with
  | Except.error err => (o, Option.some err)
  | Except.ok Option.none => (None, Option.none)
  | Except.ok (Option.some v) => (Some v, Option.none)

/-- Opt.MarshalText of src/text.go: a pass-through to the document encoding
(json.Marshal on an Opt dispatches to its MarshalJSON). -/
def Opt.MarshalText {T : Type} (c : JsonCodec T) (o : Opt T) :
    Except String (List Nat) :=
  o.MarshalJSON c

/-- Opt.UnmarshalText of src/text.go: a pass-through to the document decoding
(json.Unmarshal on an Opt dispatches to its UnmarshalJSON). -/
def Opt.UnmarshalText {T : Type} [Inhabited T] (c : JsonCodec T) (o : Opt T)
    (data : List Nat) : Opt T × Option String :=
  o.UnmarshalJSON c data

/-- The store facilities Opt.Scan of src/unnamed/part_001 consults, with A the
domain of raw driver values: the optional native scan capability of T
(probing whether T implements sql.Scanner), the standard scalar converter
(driver.DefaultParameterConverter.ConvertValue), the exact type assertion of
a converted driver value to T, and the generic null-aware scan
(sql.Null[T].Scan) whose successful outcome carries a validity flag. -/
structure ScanEnv (A T : Type) where
  scanCap : Option (A → Except String T)
  convert : A → Except String A
  asT : A → Option T
  nullScan : A → Except String (Option T)

/-- Opt.scanConvertValue of src/unnamed/part_001: run the generic null-aware
scan; a valid result becomes Some, an invalid result becomes None, an error
is returned with the receiver untouched. -/
def Opt.scanConvertValue {A T : Type} [Inhabited T] (env : ScanEnv A T)
    (o : Opt T) (src : A) : Opt T × Option String :=
  match env.nullScan src with
  | Except.error err => (o, Option.some err)
  | Except.ok (Option.some v) => (Some v, Option.none)
  | Except.ok Option.none => (None, Option.none)

/-- Opt.Scan of src/unnamed/part_001: NULL input becomes None; otherwise the
native scan capability is tried first (its failure is wrapped and returned),
then the standard conversion guarded by an exact type match, then the generic
null-aware scan. -/
def Opt.Scan {A T : Type} [Inhabited T] (env : ScanEnv A T) (o : Opt T)
    (src : Option A) : Opt T × Option String :=
  match src with
  | Option.none => (None, Option.none)
  | Option.some s =>
    match env.scanCap with
    | Option.some scan =>
      match scan s with
      | Except.error err => (o, Option.some ("failed to scan: " ++ err))
      | Except.ok v => (Some v, Option.none)
    | Option.none =>
      match env.convert s with
      | Except.ok converted =>
        match env.asT converted with
        | Option.some v => (Some v, Option.none)
        | Option.none => o.scanConvertValue env s
      | Except.error _ => o.scanConvertValue env s

/-- Opt.Value of src/unnamed/part_001 lines 50-64 (the variant with the raw
fallback): NULL when absent; otherwise the converted scalar when the standard
conversion succeeds, and the raw contained value with no error when it fails.
The driver value result distinguishes NULL (none), a converted scalar (inl)
and a raw unconverted value (inr). -/
def Opt.Value {A T : Type} (conv : T → Except String A) (o : Opt T) :
    Option (A ⊕ T) × Option String :=
  if !o.hasValue then (Option.none, Option.none)
  else
    match conv o.value with
    | Except.ok converted => (Option.some (Sum.inl converted), Option.none)
    | Except.error _ => (Option.some (Sum.inr o.value), Option.none)

/-- Opt.Value of src/unnamed/part_001 lines 130-136 (the variant without the
raw fallback): the outcome of the standard conversion is returned directly,
so a conversion failure surfaces as an error. -/
def Opt.ValueStrict {A T : Type} (conv : T → Except String A) (o : Opt T) :
    Option (A ⊕ T) × Option String :=
  if !o.hasValue then (Option.none, Option.none)
  else
    match conv o.value with
    | Except.ok converted => (Option.some (Sum.inl converted), Option.none)
    | Except.error err => (Option.none, Option.some err)

/-- Options reachable through the public surface: the constructors, the
combinators (with function arguments whose option results are themselves
reachable), and the decode paths. The zero-initialized slot is deliberately
not included: it arises from default initialization, not from any call. -/
inductive Reachable {T : Type} [Inhabited T] : Opt T → Prop where
  | of_some (v : T) : Reachable (Some v)
  | of_none : Reachable None
  | of_fromPtr (ptr : Option T) : Reachable (FromPtr ptr)
  | of_fromZero [DecidableEq T] (v : T) : Reachable (FromZero v)
  | of_fromProto (isValid : T → Bool) (msg : T) : Reachable (FromProto isValid msg)
  | of_fromTuple (v : T) (ok : Bool) : Reachable (FromTuple v ok)
  | of_inspect (o : Opt T) (f : T → Unit) (h : Reachable o) : Reachable (o.Inspect f)
  | of_mapMethod (o : Opt T) (f : T → T) (h : Reachable o) : Reachable (o.Map f)
  | of_and (x y : Opt T) (hx : Reachable x) (hy : Reachable y) : Reachable (x.And y)
  | of_andThenMethod (o : Opt T) (f : T → Opt T) (h : Reachable o)
      (hf : ∀ v, Reachable (f v)) : Reachable (o.AndThen f)
  | of_or (x y : Opt T) (hx : Reachable x) (hy : Reachable y) : Reachable (x.Or y)
  | of_orElse (o : Opt T) (f : Unit → Opt T) (h : Reachable o)
      (hf : Reachable (f ())) : Reachable (o.OrElse f)
  | of_filter (o : Opt T) (p : T → Bool) (h : Reachable o) : Reachable (o.Filter p)
  | of_mapFree {S : Type} (o : Opt S) (f : S → T) : Reachable (Map o f)
  | of_andThenFree {S : Type} (o : Opt S) (f : S → Opt T)
      (hf : ∀ v, Reachable (f v)) : Reachable (AndThen o f)
  | of_indexSlice (slice : List T) (i : Int) : Reachable (IndexSlice slice i)
  | of_indexMap {K : Type} (m : K → Option T) (k : K) : Reachable (IndexMap m k)
  | of_unmarshalBinary (c : BinCodec T) (o : Opt T) (data : List Nat)
      (h : Reachable o) : Reachable (o.UnmarshalBinary c data).1
  | of_unmarshalJSON (c : JsonCodec T) (o : Opt T) (b : List Nat)
      (h : Reachable o) : Reachable (o.UnmarshalJSON c b).1
  | of_unmarshalText (c : JsonCodec T) (o : Opt T) (b : List Nat)
      (h : Reachable o) : Reachable (o.UnmarshalText c b).1
  | of_scan {A : Type} (env : ScanEnv A T) (o : Opt T) (src : Option A)
      (h : Reachable o) : Reachable (o.Scan env src).1
  | of_scanConvertValue {A : Type} (env : ScanEnv A T) (o : Opt T) (src : A)
      (h : Reachable o) : Reachable (o.scanConvertValue env src).1

/-- The two structural invariants tracked together: presence forces
explicitness, and absence forces a zero payload. -/
def InvGood {T : Type} [Inhabited T] (o : Opt T) : Prop :=
  (o.hasValue = true → o.explicit = true) ∧ (o.hasValue = false → o.value = default)

/-- A small concrete binary codec used to instantiate the abstract theorems
at a computable point. -/
def toyBin : BinCodec Nat :=
  { enc := fun n => Except.ok [n]
    dec := fun bs =>
      match bs with
      | [n] => Except.ok n
      | _ => Except.error "toy: bad data" }

/-- A small concrete document codec used to instantiate the abstract theorems
at a computable point. -/
def toyJson : JsonCodec Nat :=
  { enc := fun n => Except.ok [n]
    dec := fun bs =>
      if bs = goNullBytes then Except.ok Option.none
      else
        match bs with
        | [n] => Except.ok (Option.some n)
        | _ => Except.error "toy: bad data" }

/-- Decimal digit bytes of a natural number. -/
def decDigits (n : Nat) : List Nat :=
  (Nat.toDigits 10 n).map Char.toNat

/-- The document number bytes of an integer, as encoding/json renders an
int. -/
def jsonIntBytes (n : Int) : List Nat :=
  if n < 0 then 45 :: decDigits n.natAbs else decDigits n.toNat

/-- Reads decimal digit bytes back into a natural number; anything that is
not a digit rejects the input. -/
def digitsToNat (bs : List Nat) : Option Nat :=
  bs.foldl
    (fun acc d =>
      match acc with
      | Option.none => Option.none
      | Option.some a =>
        if 48 ≤ d ∧ d ≤ 57 then Option.some (a * 10 + (d - 48)) else Option.none)
    (Option.some 0)

/-- Reads document number bytes back into an integer (the number grammar is
simplified to optionally signed digit runs, which covers every output of
jsonIntBytes). -/
def parseJsonInt (bs : List Nat) : Option Int :=
  match bs with
  | [] => Option.none
  | 45 :: rest =>
    if rest = [] then Option.none
    else (digitsToNat rest).map (fun n => -(n : Int))
  | _ => (digitsToNat bs).map (fun n => (n : Int))

/-- The document codec encoding/json actually provides at the Go type ptr to
int, with that Go type modelled as Option Int: a nil pointer encodes to the
null literal, and decoding targets a nullable reference to a pointer, so the
null literal decodes to a null reference. This is the concrete collaborator
at which the round-trip property of the document adapter breaks. -/
def goPtrIntJson : JsonCodec (Option Int) :=
  { enc := fun v =>
      match v with
      | Option.none => Except.ok goNullBytes
      | Option.some n => Except.ok (jsonIntBytes n)
    dec := fun bs =>
      if bs = goNullBytes then Except.ok Option.none
      else
        match parseJsonInt bs with
        | Option.some n => Except.ok (Option.some (Option.some n))
        | Option.none => Except.error "json: cannot unmarshal value" }

/-- A conversion that always fails, standing for a contained type outside the
driver converter's scalar kinds. -/
def convFail : Nat → Except String Nat :=
  fun _ => Except.error "unsupported type"

/-- A concrete scan environment whose contained type has the native scan
capability. -/
def toyScanEnvCap : ScanEnv Nat Nat :=
  { scanCap := Option.some (fun s => Except.ok (s * 10))
    convert := fun s => Except.ok s
    asT := fun a => Option.some a
    nullScan := fun s => Except.ok (Option.some s) }

/-- A concrete scan environment without the native scan capability and with a
type assertion that never matches, forcing the final fallback tier. -/
def toyScanEnvPlain : ScanEnv Nat Nat :=
  { scanCap := Option.none
    convert := fun s => Except.ok s
    asT := fun _ => Option.none
    nullScan := fun s =>
      if s = 0 then Except.ok Option.none else Except.ok (Option.some (s + 1)) }

lemma invGood_some {T : Type} [Inhabited T] (v : T) : InvGood (Some v) := by
  refine ⟨fun _ => rfl, fun h => ?_⟩
  simp [Some] at h

lemma invGood_none {T : Type} [Inhabited T] : InvGood (None : Opt T) :=
  ⟨fun _ => rfl, fun _ => rfl⟩

lemma invGood_scanConvertValue {A T : Type} [Inhabited T] (env : ScanEnv A T)
    (o : Opt T) (s : A) (h : InvGood o) : InvGood (o.scanConvertValue env s).1 := by
  unfold Opt.scanConvertValue
  split
  · exact h
  · exact invGood_some _
  · exact invGood_none

lemma reachable_invGood {T : Type} [Inhabited T] {o : Opt T}
    (h : Reachable o) : InvGood o := by
  induction h with
  | of_some v => exact invGood_some v
  | of_none => exact invGood_none
  | of_fromPtr ptr =>
    cases ptr with
    | none => exact invGood_none
    | some v => exact invGood_some v
  | of_fromZero v =>
    unfold FromZero
    split
    · exact invGood_none
    · exact invGood_some v
  | of_fromProto isValid msg =>
    unfold FromProto
    split
    · exact invGood_some msg
    · exact invGood_none
  | of_fromTuple v ok =>
    unfold FromTuple
    split
    · exact invGood_some v
    · exact invGood_none
  | of_inspect o f h ih => exact ih
  | of_mapMethod o f h ih =>
    unfold Opt.Map
    split
    · exact invGood_some _
    · exact ih
  | of_and x y hx hy ihx ihy =>
    unfold Opt.And
    split
    · exact ihy
    · exact ihx
  | of_andThenMethod o f h hf ih ihf =>
    unfold Opt.AndThen
    split
    · exact ihf _
    · exact ih
  | of_or x y hx hy ihx ihy =>
    unfold Opt.Or
    split
    · exact ihx
    · exact ihy
  | of_orElse o f h hf ih ihf =>
    unfold Opt.OrElse
    split
    · exact ih
    · exact ihf
  | of_filter o p h ih =>
    unfold Opt.Filter
    split
    · exact ih
    · split
      · exact invGood_none
      · exact ih
  | of_mapFree o f =>
    unfold Map
    split
    · exact invGood_some _
    · exact invGood_none
  | of_andThenFree o f hf ihf =>
    unfold AndThen
    split
    · exact ihf _
    · exact invGood_none
  | of_indexSlice slice i =>
    simp only [IndexSlice]
    split
    · exact invGood_none
    · exact invGood_some _
  | of_indexMap m k =>
    simp only [IndexMap]
    split
    · exact invGood_some _
    · exact invGood_none
  | of_unmarshalBinary c o data h ih =>
    unfold Opt.UnmarshalBinary
    split
    · exact ih
    · split
      · exact invGood_none
      · split
        · exact ih
        · exact invGood_some _
  | of_unmarshalJSON c o b h ih =>
    unfold Opt.UnmarshalJSON
    split
    · exact ih
    · exact invGood_none
    · exact invGood_some _
  | of_unmarshalText c o b h ih =>
    unfold Opt.UnmarshalText Opt.UnmarshalJSON
    split
    · exact ih
    · exact invGood_none
    · exact invGood_some _
  | of_scan env o src h ih =>
    unfold Opt.Scan
    split
    · exact invGood_none
    · split
      · split
        · exact ih
        · exact invGood_some _
      · split
        · split
          · exact invGood_some _
          · exact invGood_scanConvertValue env o _ ih
        · exact invGood_scanConvertValue env o _ ih
  | of_scanConvertValue env o src h ih =>
    exact invGood_scanConvertValue env o src ih

/-- C2: every option produced by a constructor (Some, None, FromPtr, FromZero,
FromProto, FromTuple), by a combinator, or by a decode path satisfies that
presence implies explicitness, so the combination hasValue true with explicit
false is never produced; a zero-initialized option has hasValue false and
explicit false. -/
theorem reachable_some_is_explicit :
    (∀ (T : Type) [Inhabited T] (o : Opt T), Reachable o →
      o.hasValue = true → o.explicit = true) ∧
    (∀ (T : Type) [Inhabited T],
      (zeroOpt : Opt T).hasValue = false ∧ (zeroOpt : Opt T).explicit = false) := by
  constructor
  · intro T _ o h
    exact (reachable_invGood h).1
  · intro T _
    exact ⟨rfl, rfl⟩

/-- Witness for C2 at the concrete option Some 3 over Nat. -/
theorem reachable_some_is_explicit_witness :
    ((Some (3 : Nat)).hasValue = true → (Some (3 : Nat)).explicit = true) ∧
    (zeroOpt : Opt Nat).hasValue = false ∧ (zeroOpt : Opt Nat).explicit = false :=
  ⟨reachable_some_is_explicit.1 Nat (Some 3) (Reachable.of_some 3),
   (reachable_some_is_explicit.2 Nat).1, (reachable_some_is_explicit.2 Nat).2⟩

/-- C9: every option produced by the public surface stores the zero value of T
whenever it is absent, and GetOrEmpty and TryGet on an absent option yield the
zero value of T. -/
theorem absent_payload_is_zero :
    (∀ (T : Type) [Inhabited T] (o : Opt T), Reachable o →
      o.hasValue = false → o.value = default) ∧
    (∀ (T : Type) [Inhabited T] (o : Opt T), o.hasValue = false →
      o.GetOrEmpty = default ∧ o.TryGet = (default, false)) := by
  constructor
  · intro T _ o h
    exact (reachable_invGood h).2
  · intro T _ o hv
    constructor
    · simp [Opt.GetOrEmpty, hv]
    · simp [Opt.TryGet, hv]

/-- Witness for C9 at the concrete options None and zeroOpt over Nat. -/
theorem absent_payload_is_zero_witness :
    (None : Opt Nat).value = default ∧
    (zeroOpt : Opt Nat).GetOrEmpty = default :=
  ⟨absent_payload_is_zero.1 Nat None Reachable.of_none rfl,
   (absent_payload_is_zero.2 Nat zeroOpt rfl).1⟩

/-- C7: the combinator truth table, with equality comparing hasValue and, when
both present, the contained value: None.And y is None, (Some v).And y is y,
(Some v).Or y is Some v, None.Or y is y, None.AndThen f is None with the
result independent of f (f is never invoked), and (Some v).AndThen f is f v. -/
theorem combinator_laws (T : Type) [Inhabited T] (v : T) (y : Opt T)
    (f g : T → Opt T) :
    EqOpt ((None : Opt T).And y) None ∧
    EqOpt ((Some v).And y) y ∧
    EqOpt ((Some v).Or y) (Some v) ∧
    EqOpt ((None : Opt T).Or y) y ∧
    EqOpt ((None : Opt T).AndThen f) None ∧
    (None : Opt T).AndThen f = (None : Opt T).AndThen g ∧
    EqOpt ((Some v).AndThen f) (f v) := by
  refine ⟨?_, ?_, ?_, ?_, ?_, ?_, ?_⟩ <;>
    simp [EqOpt, Opt.And, Opt.Or, Opt.AndThen, Some, None]

/-- C3: the value-store read. NULL input yields None with no error; otherwise
the chain runs in order: the native scan capability of T (success wrapped as
Some, failure returned wrapped), then the standard conversion guarded by an
exact type match, then the generic null-aware scan whose valid result becomes
Some, whose invalid result becomes None, and whose error propagates. -/
theorem scan_fallback_chain (A T : Type) [Inhabited T] (env : ScanEnv A T)
    (o : Opt T) :
    (o.Scan env Option.none = (None, Option.none)) ∧
    (∀ s scan, env.scanCap = Option.some scan →
      (∀ v, scan s = Except.ok v →
        o.Scan env (Option.some s) = (Some v, Option.none)) ∧
      (∀ e, scan s = Except.error e →
        o.Scan env (Option.some s) = (o, Option.some ("failed to scan: " ++ e)))) ∧
    (∀ s, env.scanCap = Option.none →
      (∀ c v, env.convert s = Except.ok c → env.asT c = Option.some v →
        o.Scan env (Option.some s) = (Some v, Option.none)) ∧
      (∀ c, env.convert s = Except.ok c → env.asT c = Option.none →
        o.Scan env (Option.some s) = o.scanConvertValue env s) ∧
      (∀ e, env.convert s = Except.error e →
        o.Scan env (Option.some s) = o.scanConvertValue env s)) ∧
    (∀ s,
      (∀ v, env.nullScan s = Except.ok (Option.some v) →
        o.scanConvertValue env s = (Some v, Option.none)) ∧
      (env.nullScan s = Except.ok Option.none →
        o.scanConvertValue env s = (None, Option.none)) ∧
      (∀ e, env.nullScan s = Except.error e →
        o.scanConvertValue env s = (o, Option.some e))) := by
  refine ⟨rfl, ?_, ?_, ?_⟩
  · intro s scan hcap
    refine ⟨?_, ?_⟩
    · intro v hs
      simp [Opt.Scan, hcap, hs]
    · intro e hs
      simp [Opt.Scan, hcap, hs]
  · intro s hcap
    refine ⟨?_, ?_, ?_⟩
    · intro c v hcv ha
      simp [Opt.Scan, hcap, hcv, ha]
    · intro c hcv ha
      simp [Opt.Scan, hcap, hcv, ha]
    · intro e hcv
      simp [Opt.Scan, hcap, hcv]
  · intro s
    refine ⟨?_, ?_, ?_⟩
    · intro v hn
      simp [Opt.scanConvertValue, hn]
    · intro hn
      simp [Opt.scanConvertValue, hn]
    · intro e hn
      simp [Opt.scanConvertValue, hn]

/-- Witness for C3: the capability tier and the final fallback tier at
concrete scan environments. -/
theorem scan_fallback_chain_witness :
    (zeroOpt : Opt Nat).Scan toyScanEnvCap (Option.some 3) =
      (Some 30, Option.none) ∧
    (Some 7).Scan toyScanEnvPlain (Option.some 0) = (None, Option.none) := by
  constructor
  · exact ((scan_fallback_chain Nat Nat toyScanEnvCap zeroOpt).2.1 3
      (fun s => Except.ok (s * 10)) rfl).1 30 rfl
  · have h := scan_fallback_chain Nat Nat toyScanEnvPlain (Some 7)
    have h1 := (h.2.2.1 0 rfl).2.1 0 rfl rfl
    have h2 := (h.2.2.2 0).2.1 rfl
    exact h1.trans h2

/-- C4 counterexample: the Value variant without the raw fallback returns the
result of the standard conversion directly, so a present option holding a
value the converter rejects yields an error, not the raw value with no
error. -/
theorem valueStrict_propagates_conversion_error :
    (Some (3 : Nat)).ValueStrict convFail =
      (Option.none, Option.some "unsupported type") := rfl

/-- C4 amended: both Value variants return the store NULL with no error on an
absent option and the converted scalar with no error when the conversion
succeeds; when the conversion fails, the raw-fallback variant returns the raw
contained value with no error, while the variant without the raw fallback
returns no value and the conversion error. -/
theorem value_write_path (A T : Type) (conv : T → Except String A) (o : Opt T) :
    (o.hasValue = false →
      o.Value conv = (Option.none, Option.none) ∧
      o.ValueStrict conv = (Option.none, Option.none)) ∧
    (∀ a, o.hasValue = true → conv o.value = Except.ok a →
      o.Value conv = (Option.some (Sum.inl a), Option.none) ∧
      o.ValueStrict conv = (Option.some (Sum.inl a), Option.none)) ∧
    (∀ e, o.hasValue = true → conv o.value = Except.error e →
      o.Value conv = (Option.some (Sum.inr o.value), Option.none) ∧
      o.ValueStrict conv = (Option.none, Option.some e)) := by
  refine ⟨?_, ?_, ?_⟩
  · intro hv
    constructor <;> simp [Opt.Value, Opt.ValueStrict, hv]
  · intro a hv hc
    constructor <;> simp [Opt.Value, Opt.ValueStrict, hv, hc]
  · intro e hv hc
    constructor <;> simp [Opt.Value, Opt.ValueStrict, hv, hc]

/-- Witness for C4 at concrete options and a failing converter. -/
theorem value_write_path_witness :
    (Some (3 : Nat)).Value convFail =
      (Option.some (Sum.inr 3), Option.none) ∧
    (None : Opt Nat).Value convFail = (Option.none, Option.none) :=
  ⟨((value_write_path Nat Nat convFail (Some 3)).2.2 "unsupported type"
      rfl rfl).1,
   ((value_write_path Nat Nat convFail None).1 rfl).1⟩

/-- C5: for every input the structured-document decode accepts, a null
document value yields None, any other value yields Some of the decoded value,
and in both cases the resulting option is explicit. -/
theorem unmarshalJSON_null_and_value (T : Type) [Inhabited T] (c : JsonCodec T)
    (o : Opt T) (b : List Nat) :
    (c.dec b = Except.ok Option.none →
      o.UnmarshalJSON c b = (None, Option.none)) ∧
    (∀ v, c.dec b = Except.ok (Option.some v) →
      o.UnmarshalJSON c b = (Some v, Option.none)) ∧
    (∀ r, c.dec b = Except.ok r →
      ((o.UnmarshalJSON c b).1).explicit = true) := by
  refine ⟨?_, ?_, ?_⟩
  · intro h
    simp [Opt.UnmarshalJSON, h]
  · intro v h
    simp [Opt.UnmarshalJSON, h]
  · intro r h
    cases r <;> simp [Opt.UnmarshalJSON, h, None, Some]

/-- Witness for C5 on the concrete document codec: the null literal and a
plain value. -/
theorem unmarshalJSON_null_and_value_witness :
    (zeroOpt : Opt Nat).UnmarshalJSON toyJson goNullBytes =
      (None, Option.none) ∧
    (zeroOpt : Opt Nat).UnmarshalJSON toyJson [7] = (Some 7, Option.none) := by
  constructor
  · exact (unmarshalJSON_null_and_value Nat toyJson zeroOpt goNullBytes).1 rfl
  · exact (unmarshalJSON_null_and_value Nat toyJson zeroOpt [7]).2.1 7 rfl

/-- C6: the binary encoding of an absent option is exactly the single byte 0
with no payload, the encoding of a present option is the byte 1 followed by
the inner encoding of the value, and decoding empty input fails with the
format error while leaving the receiver unchanged. -/
theorem binary_format_cases (T : Type) [Inhabited T] (c : BinCodec T)
    (o : Opt T) :
    (o.hasValue = false → o.MarshalBinary c = Except.ok [0]) ∧
    (∀ bs, o.hasValue = true → c.enc o.value = Except.ok bs →
      o.MarshalBinary c = Except.ok (1 :: bs)) ∧
    ((o.UnmarshalBinary c []).1 = o ∧
      (o.UnmarshalBinary c []).2 =
        Option.some "Opt[T].UnmarshalBinary: no data") := by
  refine ⟨?_, ?_, rfl, rfl⟩
  · intro hv
    simp [Opt.MarshalBinary, hv]
  · intro bs hv he
    simp [Opt.MarshalBinary, hv, he]

/-- Witness for C6 on the concrete binary codec. -/
theorem binary_format_cases_witness :
    (None : Opt Nat).MarshalBinary toyBin = Except.ok [0] ∧
    (Some (5 : Nat)).MarshalBinary toyBin = Except.ok [1, 5] :=
  ⟨(binary_format_cases Nat toyBin None).1 rfl,
   (binary_format_cases Nat toyBin (Some 5)).2.1 [5] rfl rfl⟩

/-- C10: the decodes are atomic in the receiver: whenever the binary or the
structured-document decode reports an error, the receiving option is returned
exactly as it was; it is overwritten only on success. -/
theorem unmarshal_atomic_on_error (T : Type) [Inhabited T] (bc : BinCodec T)
    (jc : JsonCodec T) (o : Opt T) (data : List Nat) (e : String) :
    ((o.UnmarshalBinary bc data).2 = Option.some e →
      (o.UnmarshalBinary bc data).1 = o) ∧
    ((o.UnmarshalJSON jc data).2 = Option.some e →
      (o.UnmarshalJSON jc data).1 = o) := by
  constructor
  · cases data with
    | nil => intro _; rfl
    | cons b rest =>
      intro h
      simp only [Opt.UnmarshalBinary] at h ⊢
      by_cases hb : b = 0
      · simp [hb] at h
      · simp only [if_neg hb] at h ⊢
        cases hd : bc.dec rest with
        | error err => simp [hd]
        | ok v => simp [hd] at h
  · intro h
    simp only [Opt.UnmarshalJSON] at h ⊢
    cases hd : jc.dec data with
    | error err => simp [hd]
    | ok r =>
      cases r <;> simp [hd] at h

/-- Witness for C10: a failing binary decode (inner codec error) and a failing
document decode (malformed input) both leave the concrete receiver Some 7
unchanged. -/
theorem unmarshal_atomic_on_error_witness :
    ((Some (7 : Nat)).UnmarshalBinary toyBin [1, 2, 3]).1 = Some 7 ∧
    ((Some (7 : Nat)).UnmarshalJSON toyJson [2, 3]).1 = Some 7 :=
  ⟨(unmarshal_atomic_on_error Nat toyBin toyJson (Some 7) [1, 2, 3]
      "toy: bad data").1 rfl,
   (unmarshal_atomic_on_error Nat toyBin toyJson (Some 7) [2, 3]
      "toy: bad data").2 rfl⟩

/-- C1 counterexample: at the document codec the host actually provides for a
nullable contained type (a Go pointer to int, modelled as Option Int), the
present option holding the nil pointer encodes to the null literal, and the
null literal decodes back to an absent option; decode of encode therefore
differs from the original option in hasValue, for the document adapter and
for the text adapter derived from it. -/
theorem json_roundtrip_fails_on_nil_pointer :
    (Some (Option.none : Option Int)).MarshalJSON goPtrIntJson =
      Except.ok goNullBytes ∧
    ((zeroOpt : Opt (Option Int)).UnmarshalJSON goPtrIntJson
      goNullBytes).1.hasValue = false ∧
    (Some (Option.none : Option Int)).hasValue = true ∧
    ¬ EqOpt ((zeroOpt : Opt (Option Int)).UnmarshalJSON goPtrIntJson
        goNullBytes).1 (Some (Option.none : Option Int)) ∧
    ((zeroOpt : Opt (Option Int)).UnmarshalText goPtrIntJson
      goNullBytes).1.hasValue = false := by
  refine ⟨rfl, ?_, rfl, ?_, ?_⟩
  · rfl
  · intro h
    exact absurd h.1 (by decide)
  · rfl

/-- C1 amended: decoding the bytes produced by a successful encode returns an
option equal to the original (comparing hasValue and, when present, the
value) for each adapter, provided the inner codec is faithful: the binary
codec must decode its own encodings back to the encoded value, and the
document codec must decode the encoding of a value back to a non-null
reference to that value and the null literal to a null reference. The Go
document codec violates that proviso exactly at values that encode to the
null literal, which is what the counterexample exploits. -/
theorem roundtrip_with_faithful_codec (T : Type) [Inhabited T]
    (bc : BinCodec T) (jc : JsonCodec T)
    (hbin : ∀ v bs, bc.enc v = Except.ok bs → bc.dec bs = Except.ok v)
    (hjson : ∀ v bs, jc.enc v = Except.ok bs →
      jc.dec bs = Except.ok (Option.some v))
    (hnull : jc.dec goNullBytes = Except.ok Option.none)
    (opt o₀ : Opt T) :
    (∀ bs, opt.MarshalBinary bc = Except.ok bs →
      EqOpt (o₀.UnmarshalBinary bc bs).1 opt ∧
      (o₀.UnmarshalBinary bc bs).2 = Option.none) ∧
    (∀ bs, opt.MarshalJSON jc = Except.ok bs →
      EqOpt (o₀.UnmarshalJSON jc bs).1 opt ∧
      (o₀.UnmarshalJSON jc bs).2 = Option.none) ∧
    (∀ bs, opt.MarshalText jc = Except.ok bs →
      EqOpt (o₀.UnmarshalText jc bs).1 opt ∧
      (o₀.UnmarshalText jc bs).2 = Option.none) := by
  have hjsonLeg : ∀ bs, opt.MarshalJSON jc = Except.ok bs →
      EqOpt (o₀.UnmarshalJSON jc bs).1 opt ∧
      (o₀.UnmarshalJSON jc bs).2 = Option.none := by
    intro bs hm
    cases hv : opt.hasValue with
    | false =>
      simp [Opt.MarshalJSON, hv] at hm
      subst hm
      simp [Opt.UnmarshalJSON, hnull, EqOpt, None, hv]
    | true =>
      simp [Opt.MarshalJSON, hv] at hm
      have hd := hjson opt.value bs hm
      simp [Opt.UnmarshalJSON, hd, EqOpt, Some, hv]
  refine ⟨?_, hjsonLeg, ?_⟩
  · intro bs hm
    cases hv : opt.hasValue with
    | false =>
      simp [Opt.MarshalBinary, hv] at hm
      subst hm
      simp [Opt.UnmarshalBinary, EqOpt, None, hv]
    | true =>
      simp only [Opt.MarshalBinary, hv, Bool.not_true, Bool.false_eq_true,
        if_false] at hm
      cases he : bc.enc opt.value with
      | error err => simp [he] at hm
      | ok bs0 =>
        simp [he] at hm
        subst hm
        have hd := hbin opt.value bs0 he
        simp [Opt.UnmarshalBinary, hd, EqOpt, Some, hv]
  · intro bs hm
    exact hjsonLeg bs hm

/-- Witness for the amended C1 at the concrete codecs and the option Some 3:
both adapters round-trip. -/
theorem roundtrip_with_faithful_codec_witness :
    EqOpt ((zeroOpt : Opt Nat).UnmarshalBinary toyBin [1, 3]).1 (Some 3) ∧
    EqOpt ((zeroOpt : Opt Nat).UnmarshalJSON toyJson [3]).1 (Some 3) := by
  have hb : ∀ (v : Nat) bs, toyBin.enc v = Except.ok bs →
      toyBin.dec bs = Except.ok v := by
    intro v bs h
    cases h
    rfl
  have hj : ∀ (v : Nat) bs, toyJson.enc v = Except.ok bs →
      toyJson.dec bs = Except.ok (Option.some v) := by
    intro v bs h
    cases h
    simp [toyJson, goNullBytes]
  have h := roundtrip_with_faithful_codec Nat toyBin toyJson hb hj rfl
    (Some 3) zeroOpt
  exact ⟨(h.1 [1, 3] rfl).1, (h.2.1 [3] rfl).1⟩

/-- C8 counterexample: the alternate IndexSlice variant guards only the upper
bound, so index -1 on the three element slice [10, 40, 30] reaches the raw
slice access and panics at runtime instead of returning an absent option. -/
theorem indexSliceV0_negative_index_fails :
    IndexSliceV0 ([10, 40, 30] : List Nat) (-1) =
      Except.error "runtime error: index out of range" := rfl

/-- C8 amended: the closure-returning IndexSlice yields Some of the element
for every in-bounds index and None for every out-of-range index, negatives
included, without failing; the alternate variant yields None only for indices
at or past the length and fails (panics) on every negative index; both
IndexMap variants yield Some exactly when the key exists and None otherwise,
never failing. -/
theorem index_helpers (T : Type) [Inhabited T] (slice : List T) (index : Int)
    (K V : Type) [Inhabited V] (m : K → Option V) (k : K) :
    ((slice.length : Int) ≤ index ∨ index < 0 →
      IndexSlice slice index = None) ∧
    (0 ≤ index → index < (slice.length : Int) →
      IndexSlice slice index = Some (slice.getD index.toNat default)) ∧
    ((slice.length : Int) ≤ index →
      IndexSliceV0 slice index = Except.ok NoneV0) ∧
    (index < 0 → IndexSliceV0 slice index =
      Except.error "runtime error: index out of range") ∧
    (0 ≤ index → index < (slice.length : Int) →
      IndexSliceV0 slice index =
        Except.ok (SomeV0 (slice.getD index.toNat default))) ∧
    (∀ v, m k = Option.some v →
      IndexMap m k = Some v ∧ IndexMapV0 m k = SomeV0 v) ∧
    (m k = Option.none → IndexMap m k = None ∧ IndexMapV0 m k = NoneV0) := by
  refine ⟨?_, ?_, ?_, ?_, ?_, ?_, ?_⟩
  · intro h
    simp only [IndexSlice]
    rw [if_pos h]
  · intro h0 h1
    have hc : ¬((slice.length : Int) ≤ index ∨ index < 0) := by omega
    simp only [IndexSlice]
    rw [if_neg hc]
  · intro h
    simp only [IndexSliceV0]
    rw [if_pos h]
  · intro h
    have h1 : ¬((slice.length : Int) ≤ index) := by omega
    simp only [IndexSliceV0]
    rw [if_neg h1, if_pos h]
  · intro h0 h1
    have h2 : ¬((slice.length : Int) ≤ index) := by omega
    have h3 : ¬(index < 0) := by omega
    simp only [IndexSliceV0]
    rw [if_neg h2, if_neg h3]
  · intro v hm
    constructor
    · simp [IndexMap, hm]
    · simp [IndexMapV0, hm, SomeV0]
  · intro hm
    constructor
    · simp [IndexMap, hm]
    · simp [IndexMapV0, hm, NoneV0]

/-- Witness for C8 on the slice [10, 40, 30] of the spec: index 1 is Some 40,
index 3 and index -1 are None for the closure-returning variant. -/
theorem index_helpers_witness :
    IndexSlice ([10, 40, 30] : List Nat) 1 = Some 40 ∧
    IndexSlice ([10, 40, 30] : List Nat) 3 = None ∧
    IndexSlice ([10, 40, 30] : List Nat) (-1) = None := by
  refine ⟨?_, ?_, ?_⟩
  · exact (index_helpers Nat [10, 40, 30] 1 Nat Nat (fun _ => Option.none)
      0).2.1 (by decide) (by decide)
  · exact (index_helpers Nat [10, 40, 30] 3 Nat Nat (fun _ => Option.none)
      0).1 (Or.inl (by decide))
  · exact (index_helpers Nat [10, 40, 30] (-1) Nat Nat (fun _ => Option.none)
      0).1 (Or.inr (by decide))

end opt
